import Mathlib

/-!
Verification of the node_counter report generator (src/main.rs).

The program fetches a list of nodes and then, for each calendar month in a
fixed 10-year range starting at START_YEAR, emits one CSV row with cumulative
aggregates over the nodes created strictly before that month's start.

Shallow embedding conventions:
  - `Utc::now().timestamp()` is modelled as a fixed parameter `now : Int`
    (the claims quantify over a single wall-clock instant).
  - The nested `for year { for month { ... break ... } }` loop is modelled by
    explicit recursion over the month list of each year; `break` in Rust exits
    only the innermost loop, which the recursion mirrors.
  - `u64` addition (`+=` on the resource counters) wraps modulo 2^64, as in a
    release build; this is made explicit with `% U64MOD`.
  - `HashSet<u32>` of farm ids is modelled as `Finset Nat` (same membership
    and cardinality semantics).
  - File and network i/o are out of scope: the observable behaviour is the
    list of output lines.
-/

/-- Leap-year predicate of the proleptic Gregorian calendar (chrono's
calendar, which backs `Utc.with_ymd_and_hms`). -/
def isLeap (y : Nat) : Bool :=
  (y % 4 == 0 && y % 100 != 0) || y % 400 == 0

/-- Number of days in year `y`. -/
def daysInYear (y : Nat) : Nat := if isLeap y then 366 else 365

/-- Lengths of the twelve months of year `y`. -/
def monthLengths (y : Nat) : List Nat :=
  [31, if isLeap y then 29 else 28, 31, 30, 31, 30, 31, 31, 30, 31, 30, 31]

/-- Days from 1970-01-01 to the first day of year `y` (for `y ≥ 1970`). -/
def daysBeforeYear (y : Nat) : Nat :=
  ((List.range (y - 1970)).map fun k => daysInYear (1970 + k)).sum

/-- Days from the first day of year `y` to the first day of month `m` of `y`. -/
def daysBeforeMonth (y m : Nat) : Nat := ((monthLengths y).take (m - 1)).sum

/-- Unix timestamp (seconds) of `y`-`m`-01 00:00:00 UTC.  Models
`Utc.with_ymd_and_hms(year, month, 1, 0, 0, 0).unwrap().timestamp()`
from main.rs line 51-54. -/
def monthStart (y m : Nat) : Int :=
  ((86400 * (daysBeforeYear y + daysBeforeMonth y m) : Nat) : Int)

/-- `const START_YEAR: i32 = 2022;` (main.rs line 14). -/
def START_YEAR : Nat := 2022

/-- The four resource counters (main.rs `struct Resources`, u64 fields). -/
structure Resources where
  cru : Nat
  mru : Nat
  sru : Nat
  hru : Nat
deriving DecidableEq, Repr

/-- A node record (main.rs `struct Node`).  `node_id` is parsed but unused. -/
structure Node where
  node_id : Nat
  farm_id : Nat
  created : Int
  resources_total : Resources
deriving DecidableEq, Repr

/-- 2^64: the modulus of wrapping u64 arithmetic. -/
def U64MOD : Nat := 18446744073709551616

/-- One step of the fold in main.rs lines 65-84: increment the node count,
insert the node's farm id into the set, add the node's resources (u64
addition, wrapping modulo 2^64). -/
def step (acc : Nat × Finset Nat × Resources) (node : Node) :
    Nat × Finset Nat × Resources :=
  (acc.1 + 1,
   insert node.farm_id acc.2.1,
   ⟨(acc.2.2.cru + node.resources_total.cru) % U64MOD,
    (acc.2.2.mru + node.resources_total.mru) % U64MOD,
    (acc.2.2.sru + node.resources_total.sru) % U64MOD,
    (acc.2.2.hru + node.resources_total.hru) % U64MOD⟩)

/-- The filter `.filter(|node| node.created < start)` (main.rs line 64). -/
def qualifying (nodes : List Node) (start : Int) : List Node :=
  nodes.filter fun n => decide (n.created < start)

/-- The whole per-month aggregation (main.rs lines 60-84): filter the nodes
to those created strictly before `start` and fold them into
`(node_count, farms, total_resources)`. -/
def aggregate (nodes : List Node) (start : Int) : Nat × Finset Nat × Resources :=
  (qualifying nodes start).foldl step (0, ∅, ⟨0, 0, 0, 0⟩)

/-- The month range `1..=12` of the inner loop (main.rs line 50). -/
def monthNums : List Nat := List.range' 1 12

/-- The year range `START_YEAR..START_YEAR + 10` (main.rs line 49). -/
def years : List Nat := List.range' START_YEAR 10

/-- The inner month loop of one year, keeping the months for which a row is
emitted: `if Utc::now().timestamp() < start { break }` (main.rs lines 56-58)
stops the month loop at the first month whose start is in the future; earlier
months each produce a row. -/
def emitMonths (now : Int) (y : Nat) : List Nat → List Nat
  | [] => []
  | m :: ms => if now < monthStart y m then [] else m :: emitMonths now y ms

/-- The inner month loop of one year, keeping every month the loop body
examines (computes `start` for and tests against `now`): the breaking month
itself is examined even though it emits no row. -/
def scanMonths (now : Int) (y : Nat) : List Nat → List Nat
  | [] => []
  | m :: ms => if now < monthStart y m then [m] else m :: scanMonths now y ms

/-- All (year, month) pairs for which the program emits a data row.  The
outer year loop always advances to the next year; a `break` in Rust exits
only the innermost loop. -/
def emittedMonths (now : Int) : List (Nat × Nat) :=
  years.flatMap fun y => (emitMonths now y monthNums).map fun m => (y, m)

/-- All (year, month) pairs examined by the loop body (a `start` timestamp is
computed and compared with `now`). -/
def examinedMonths (now : Int) : List (Nat × Nat) :=
  years.flatMap fun y => (scanMonths now y monthNums).map fun m => (y, m)

/-- The full 10-year calendar grid the nested loops range over. -/
def monthGrid : List (Nat × Nat) :=
  years.flatMap fun y => monthNums.map fun m => (y, m)

/-- The month-start timestamps of the 120 grid months, precomputed. -/
def monthStartTable : List Int :=
  [1640995200, 1643673600, 1646092800, 1648771200, 1651363200, 1654041600,
   1656633600, 1659312000, 1661990400, 1664582400, 1667260800, 1669852800,
   1672531200, 1675209600, 1677628800, 1680307200, 1682899200, 1685577600,
   1688169600, 1690848000, 1693526400, 1696118400, 1698796800, 1701388800,
   1704067200, 1706745600, 1709251200, 1711929600, 1714521600, 1717200000,
   1719792000, 1722470400, 1725148800, 1727740800, 1730419200, 1733011200,
   1735689600, 1738368000, 1740787200, 1743465600, 1746057600, 1748736000,
   1751328000, 1754006400, 1756684800, 1759276800, 1761955200, 1764547200,
   1767225600, 1769904000, 1772323200, 1775001600, 1777593600, 1780272000,
   1782864000, 1785542400, 1788220800, 1790812800, 1793491200, 1796083200,
   1798761600, 1801440000, 1803859200, 1806537600, 1809129600, 1811808000,
   1814400000, 1817078400, 1819756800, 1822348800, 1825027200, 1827619200,
   1830297600, 1832976000, 1835481600, 1838160000, 1840752000, 1843430400,
   1846022400, 1848700800, 1851379200, 1853971200, 1856649600, 1859241600,
   1861920000, 1864598400, 1867017600, 1869696000, 1872288000, 1874966400,
   1877558400, 1880236800, 1882915200, 1885507200, 1888185600, 1890777600,
   1893456000, 1896134400, 1898553600, 1901232000, 1903824000, 1906502400,
   1909094400, 1911772800, 1914451200, 1917043200, 1919721600, 1922313600,
   1924992000, 1927670400, 1930089600, 1932768000, 1935360000, 1938038400,
   1940630400, 1943308800, 1945987200, 1948579200, 1951257600, 1953849600]

/-- The successor of a (year, month) pair in calendar order. -/
def nextMonth (p : Nat × Nat) : Nat × Nat :=
  if p.2 = 12 then (p.1 + 1, 1) else (p.1, p.2 + 1)


/-- The header line written at main.rs lines 42-46. -/
def headerLine : String :=
  "date,node count,farms with nodes,total CRU,total MRU,total SRU,total HRU"

/-- One data row (main.rs lines 86-95):
`"{year}-{month}-1,{node_count},{farms.len()},{cru},{mru},{sru},{hru}"`. -/
def rowLine (y m : Nat) (agg : Nat × Finset Nat × Resources) : String :=
  Nat.repr y ++ "-" ++ Nat.repr m ++ "-1," ++ Nat.repr agg.1 ++ "," ++
    Nat.repr agg.2.1.card ++ "," ++ Nat.repr agg.2.2.cru ++ "," ++
    Nat.repr agg.2.2.mru ++ "," ++ Nat.repr agg.2.2.sru ++ "," ++
    Nat.repr agg.2.2.hru

/-- The data rows the program writes, in order. -/
def outputRows (nodes : List Node) (now : Int) : List String :=
  (emittedMonths now).map fun p => rowLine p.1 p.2 (aggregate nodes (monthStart p.1 p.2))

/-- The whole content of node_count.csv as a list of lines: the header
followed by the data rows. -/
def outputLines (nodes : List Node) (now : Int) : List String :=
  headerLine :: outputRows nodes now

/-- The value of a decimal digit character. -/
def digitVal (c : Char) : Nat := c.toNat - 48

/-- The numeric value of a list of decimal digit characters (most significant
first), accumulated left to right -- the way `u64::from_str` accumulates. -/
def decimalVal (cs : List Char) : Nat :=
  cs.foldl (fun a c => 10 * a + digitVal c) 0

/-- Strip the single optional leading plus sign accepted by `u64::from_str`. -/
def stripPlus : List Char → List Char
  | c :: rest => if c = '+' then rest else c :: rest
  | [] => []

/-- Model of Rust `str::parse::<u64>()` (`u64::from_str`): an optional
leading plus sign, then one or more ASCII digits, and the value must fit in
u64; anything else is an error (modelled as `none`).  Rust reports overflow
at the first intermediate value above `u64::MAX`; since appending digits only
grows the value, that is equivalent to the final-value bound checked here. -/
def parseU64 (s : String) : Option Nat :=
  let cs := stripPlus s.data
  if cs.isEmpty then none
  else if cs.all Char.isDigit then
    if decimalVal cs < U64MOD then some (decimalVal cs) else none
  else none

/-- Model of `serde_json::Number`: JSON numbers are stored as a non-negative
integer fitting u64, a negative integer fitting i64, or a double (used for
fractional numbers and for integers outside the u64/i64 ranges). -/
inductive JNumber where
  | posInt : Nat → JNumber
  | negInt : Int → JNumber
  | float : JNumber
deriving DecidableEq, Repr

/-- Model of `serde_json::Number::as_u64`: the stored value when the number
is a non-negative integer representable as u64, otherwise `None`. -/
def JNumber.as_u64 : JNumber → Option Nat
  | .posInt n => if n < U64MOD then some n else none
  | .negInt _ => none
  | .float => none

/-- Model of `serde_json::Value`. -/
inductive JValue where
  | null : JValue
  | bool : Bool → JValue
  | num : JNumber → JValue
  | str : String → JValue
  | arr : List JValue → JValue
  | obj : List (String × JValue) → JValue

/-- The resource-counter deserializer (main.rs lines 141-149): a JSON string
is parsed with `str::parse::<u64>`, a JSON number is converted with
`Number::as_u64`, every other JSON type is an error.  Errors are modelled as
`none` (the error message carries no further behaviour). -/
def de_u64 : JValue → Option Nat
  | .str s => parseU64 s
  | .num n => n.as_u64
  | _ => none

/-! ### Closed form of the aggregation fold -/

theorem foldl_step_eq (l : List Node) (c : Nat) (s : Finset Nat) (r : Resources)
    (hc : r.cru < U64MOD) (hm : r.mru < U64MOD) (hs : r.sru < U64MOD)
    (hh : r.hru < U64MOD) :
    l.foldl step (c, s, r) =
      (c + l.length,
       s ∪ (l.map Node.farm_id).toFinset,
       ⟨(r.cru + (l.map fun n => n.resources_total.cru).sum) % U64MOD,
        (r.mru + (l.map fun n => n.resources_total.mru).sum) % U64MOD,
        (r.sru + (l.map fun n => n.resources_total.sru).sum) % U64MOD,
        (r.hru + (l.map fun n => n.resources_total.hru).sum) % U64MOD⟩) := by
  induction l generalizing c s r with
  | nil =>
      simp [Nat.mod_eq_of_lt hc, Nat.mod_eq_of_lt hm, Nat.mod_eq_of_lt hs,
        Nat.mod_eq_of_lt hh]
  | cons a l ih =>
      have hpos : 0 < U64MOD := by decide
      simp only [List.foldl_cons, step]
      rw [ih _ _ _ (Nat.mod_lt _ hpos) (Nat.mod_lt _ hpos) (Nat.mod_lt _ hpos)
        (Nat.mod_lt _ hpos)]
      simp only [List.map_cons, List.sum_cons, List.length_cons, List.toFinset_cons,
        Finset.insert_union, Finset.union_insert, Nat.mod_add_mod, Prod.mk.injEq,
        Resources.mk.injEq]
      refine ⟨by omega, trivial, ?_, ?_, ?_, ?_⟩ <;>
        exact congrArg (· % U64MOD) (by omega)

theorem aggregate_eq (nodes : List Node) (start : Int) :
    aggregate nodes start =
      ((qualifying nodes start).length,
       ((qualifying nodes start).map Node.farm_id).toFinset,
       ⟨((qualifying nodes start).map fun n => n.resources_total.cru).sum % U64MOD,
        ((qualifying nodes start).map fun n => n.resources_total.mru).sum % U64MOD,
        ((qualifying nodes start).map fun n => n.resources_total.sru).sum % U64MOD,
        ((qualifying nodes start).map fun n => n.resources_total.hru).sum % U64MOD⟩) := by
  unfold aggregate
  rw [foldl_step_eq _ _ _ _ (by decide) (by decide) (by decide) (by decide)]
  simp

/-! ### The month loop: emitted months are exactly the past months of the grid -/

theorem takeWhile_eq_filter_of_antitone {α : Type} {p : α → Bool} :
    ∀ {l : List α}, l.Pairwise (fun a b => p b = true → p a = true) →
      l.takeWhile p = l.filter p
  | [], _ => rfl
  | a :: l, h => by
      rcases List.pairwise_cons.mp h with ⟨h1, h2⟩
      by_cases hp : p a
      · simp only [List.takeWhile_cons, List.filter_cons, hp, if_pos, ite_true,
          takeWhile_eq_filter_of_antitone h2]
      · simp only [Bool.not_eq_true] at hp
        simp only [List.takeWhile_cons, List.filter_cons, hp, Bool.false_eq_true,
          if_false, ite_false]
        symm
        rw [List.filter_eq_nil_iff]
        intro b hb hpb
        rw [h1 b hb hpb] at hp
        exact Bool.true_eq_false.mp hp

theorem emitMonths_eq_takeWhile (now : Int) (y : Nat) :
    ∀ l : List Nat,
      emitMonths now y l = l.takeWhile fun m => decide (monthStart y m ≤ now)
  | [] => rfl
  | m :: ms => by
      by_cases h : now < monthStart y m
      · simp [emitMonths, h, List.takeWhile_cons, not_le.mpr h]
      · simp [emitMonths, h, List.takeWhile_cons, not_lt.mp h,
          emitMonths_eq_takeWhile now y ms]

theorem monthStart_mono_within_year :
    ∀ y ∈ years, monthNums.Pairwise fun m m2 => monthStart y m ≤ monthStart y m2 := by
  decide

theorem emitMonths_eq_filter (now : Int) {y : Nat} (hy : y ∈ years) :
    emitMonths now y monthNums =
      monthNums.filter fun m => decide (monthStart y m ≤ now) := by
  rw [emitMonths_eq_takeWhile]
  refine takeWhile_eq_filter_of_antitone (List.Pairwise.imp ?_ (monthStart_mono_within_year y hy))
  intro a b hab h
  simp only [decide_eq_true_eq] at h ⊢
  exact le_trans hab h

theorem emittedMonths_eq (now : Int) :
    emittedMonths now = monthGrid.filter fun p => decide (monthStart p.1 p.2 ≤ now) := by
  unfold emittedMonths monthGrid
  rw [List.filter_flatMap]
  refine List.flatMap_congr fun y hy => ?_
  rw [List.filter_map, emitMonths_eq_filter now hy]
  rfl

/-! ### The calendar grid: 120 months in strictly increasing order -/

set_option maxRecDepth 8000 in
theorem monthStartTable_eq :
    monthGrid.map (fun p => monthStart p.1 p.2) = monthStartTable := by decide

theorem monthGrid_sorted :
    monthGrid.Pairwise fun a b => monthStart a.1 a.2 < monthStart b.1 b.2 := by
  have h : (monthGrid.map fun p => monthStart p.1 p.2).Pairwise (· < ·) := by
    rw [monthStartTable_eq]; decide
  exact List.pairwise_map.mp h

/-! ### The month loops examine and emit sublists of the grid -/

theorem scanMonths_sublist (now : Int) (y : Nat) :
    ∀ l : List Nat, List.Sublist (scanMonths now y l) l
  | [] => List.Sublist.refl []
  | m :: ms => by
      by_cases h : now < monthStart y m
      · simp only [scanMonths, if_pos h]
        exact List.Sublist.cons₂ m (List.nil_sublist ms)
      · simp only [scanMonths, if_neg h]
        exact List.Sublist.cons₂ m (scanMonths_sublist now y ms)

theorem emitMonths_sublist (now : Int) (y : Nat) :
    ∀ l : List Nat, List.Sublist (emitMonths now y l) l
  | [] => List.Sublist.refl []
  | m :: ms => by
      by_cases h : now < monthStart y m
      · simp only [emitMonths, if_pos h]
        exact List.nil_sublist (m :: ms)
      · simp only [emitMonths, if_neg h]
        exact List.Sublist.cons₂ m (emitMonths_sublist now y ms)

theorem flatMap_sublist {α β : Type} {f g : α → List β} :
    ∀ l : List α, (∀ a ∈ l, List.Sublist (f a) (g a)) → List.Sublist (l.flatMap f) (l.flatMap g)
  | [], _ => List.Sublist.refl []
  | a :: l, h => by
      simp only [List.flatMap_cons]
      exact List.Sublist.append (h a (by simp))
        (flatMap_sublist l fun b hb => h b (List.mem_cons_of_mem a hb))

theorem examinedMonths_sublist (now : Int) : List.Sublist (examinedMonths now) monthGrid :=
  flatMap_sublist years fun y _ =>
    List.Sublist.map (fun m => (y, m)) (scanMonths_sublist now y monthNums)

theorem emittedMonths_sublist (now : Int) : List.Sublist (emittedMonths now) monthGrid :=
  flatMap_sublist years fun y _ =>
    List.Sublist.map (fun m => (y, m)) (emitMonths_sublist now y monthNums)

theorem monthGrid_length : monthGrid.length = 120 := by decide

/-! ### Decimal parsing inverts the decimal printing of core's Nat.repr -/

theorem toDigitsCore_eq (n : Nat) : ∀ (fuel : Nat) (ds : List Char), n < fuel →
    Nat.toDigitsCore 10 fuel n ds = Nat.toDigits 10 n ++ ds := by
  induction n using Nat.strong_induction_on with
  | _ n ih =>
    intro fuel ds hfuel
    match fuel, hfuel with
    | fuel + 1, hfuel =>
      by_cases h0 : n / 10 = 0
      · simp [Nat.toDigits, Nat.toDigitsCore, h0]
      · have h10 : 10 ≤ n := by
          rcases Nat.lt_or_ge n 10 with h | h
          · exact absurd (Nat.div_eq_of_lt h) h0
          · exact h
        have hdiv : n / 10 < n := Nat.div_lt_self (by omega) (by omega)
        have hdivfuel : n / 10 < fuel := by omega
        calc Nat.toDigitsCore 10 (fuel + 1) n ds
            = Nat.toDigitsCore 10 fuel (n / 10) (Nat.digitChar (n % 10) :: ds) := by
              simp [Nat.toDigitsCore, h0]
          _ = Nat.toDigits 10 (n / 10) ++ (Nat.digitChar (n % 10) :: ds) :=
              ih (n / 10) hdiv fuel _ hdivfuel
          _ = (Nat.toDigits 10 (n / 10) ++ [Nat.digitChar (n % 10)]) ++ ds := by
              simp
          _ = Nat.toDigits 10 n ++ ds := by
              rw [show Nat.toDigits 10 n
                    = Nat.toDigits 10 (n / 10) ++ [Nat.digitChar (n % 10)] from ?_]
              show Nat.toDigitsCore 10 (n + 1) n [] = _
              calc Nat.toDigitsCore 10 (n + 1) n []
                  = Nat.toDigitsCore 10 n (n / 10) [Nat.digitChar (n % 10)] := by
                    simp [Nat.toDigitsCore, h0]
                _ = Nat.toDigits 10 (n / 10) ++ [Nat.digitChar (n % 10)] :=
                    ih (n / 10) hdiv n _ (by omega)

theorem toDigits_of_lt (n : Nat) (h : n < 10) :
    Nat.toDigits 10 n = [Nat.digitChar n] := by
  simp [Nat.toDigits, Nat.toDigitsCore, Nat.div_eq_of_lt h, Nat.mod_eq_of_lt h]

theorem toDigits_of_ge (n : Nat) (h : 10 ≤ n) :
    Nat.toDigits 10 n = Nat.toDigits 10 (n / 10) ++ [Nat.digitChar (n % 10)] := by
  have h0 : ¬ n / 10 = 0 := by
    have := Nat.div_pos h (by omega)
    omega
  calc Nat.toDigits 10 n
      = Nat.toDigitsCore 10 n (n / 10) [Nat.digitChar (n % 10)] := by
        simp [Nat.toDigits, Nat.toDigitsCore, h0]
    _ = Nat.toDigits 10 (n / 10) ++ [Nat.digitChar (n % 10)] :=
        toDigitsCore_eq (n / 10) n _ (by
          have : n / 10 < n := Nat.div_lt_self (by omega) (by omega)
          omega)

theorem digitVal_digitChar (d : Nat) (h : d < 10) :
    digitVal (Nat.digitChar d) = d := by
  interval_cases d <;> decide

theorem isDigit_digitChar (d : Nat) (h : d < 10) :
    (Nat.digitChar d).isDigit = true := by
  interval_cases d <;> decide

theorem toDigits_all_digits (n : Nat) :
    (Nat.toDigits 10 n).all Char.isDigit = true := by
  induction n using Nat.strong_induction_on with
  | _ n ih =>
    rcases Nat.lt_or_ge n 10 with h | h
    · rw [toDigits_of_lt n h]
      simp [isDigit_digitChar n h]
    · rw [toDigits_of_ge n h, List.all_append]
      have hdiv : n / 10 < n := Nat.div_lt_self (by omega) (by omega)
      simp [ih (n / 10) hdiv, isDigit_digitChar (n % 10) (Nat.mod_lt n (by omega))]

theorem toDigits_ne_nil (n : Nat) : Nat.toDigits 10 n ≠ [] := by
  rcases Nat.lt_or_ge n 10 with h | h
  · rw [toDigits_of_lt n h]; simp
  · rw [toDigits_of_ge n h]; simp

theorem toDigits_foldl (n : Nat) : ∀ a : Nat,
    (Nat.toDigits 10 n).foldl (fun a c => 10 * a + digitVal c) a =
      a * 10 ^ (Nat.toDigits 10 n).length + n := by
  induction n using Nat.strong_induction_on with
  | _ n ih =>
    intro a
    rcases Nat.lt_or_ge n 10 with h | h
    · rw [toDigits_of_lt n h]
      simp [digitVal_digitChar n h, Nat.mul_comm]
    · have hdiv : n / 10 < n := Nat.div_lt_self (by omega) (by omega)
      rw [toDigits_of_ge n h, List.foldl_append, List.length_append, ih (n / 10) hdiv a]
      simp only [List.foldl_cons, List.foldl_nil, List.length_cons, List.length_nil]
      rw [digitVal_digitChar (n % 10) (Nat.mod_lt n (by omega))]
      calc 10 * (a * 10 ^ (Nat.toDigits 10 (n / 10)).length + n / 10) + n % 10
          = 10 * (n / 10) + n % 10 + 10 * (a * 10 ^ (Nat.toDigits 10 (n / 10)).length) := by
            ring
        _ = n + 10 * (a * 10 ^ (Nat.toDigits 10 (n / 10)).length) := by
            rw [Nat.div_add_mod]
        _ = a * 10 ^ ((Nat.toDigits 10 (n / 10)).length + (0 + 1)) + n := by
            rw [pow_succ]; ring

theorem decimalVal_toDigits (n : Nat) : decimalVal (Nat.toDigits 10 n) = n := by
  unfold decimalVal
  rw [toDigits_foldl n 0]
  simp

/-- Parsing the canonical decimal representation of `n` gives back `n` when
`n` fits in u64, and an error otherwise. -/
theorem parseU64_repr (n : Nat) :
    parseU64 (Nat.repr n) = if n < U64MOD then some n else none := by
  have hdata : (Nat.repr n).data = Nat.toDigits 10 n := rfl
  obtain ⟨c, cs, hcons⟩ : ∃ c cs, Nat.toDigits 10 n = c :: cs := by
    cases htd : Nat.toDigits 10 n with
    | nil => exact absurd htd (toDigits_ne_nil n)
    | cons c cs => exact ⟨c, cs, rfl⟩
  have hall : ((c :: cs).all Char.isDigit) = true := by
    rw [← hcons]; exact toDigits_all_digits n
  have hc : ¬ c = '+' := by
    intro he
    have hcd : c.isDigit = true := by
      simp only [List.all_cons, Bool.and_eq_true] at hall
      exact hall.1
    rw [he] at hcd
    exact absurd hcd (by decide)
  unfold parseU64
  rw [hdata, hcons]
  simp only [stripPlus, if_neg hc, List.isEmpty_cons, Bool.false_eq_true, if_false,
    hall, if_true]
  rw [← hcons, decimalVal_toDigits n]

/-! ### Monotonicity of the cumulative creation-time window -/

theorem qualifying_sublist_of_le (nodes : List Node) {s1 s2 : Int} (h : s1 ≤ s2) :
    List.Sublist (qualifying nodes s1) (qualifying nodes s2) :=
  List.monotone_filter_right _ fun n hn => by
    simp only [decide_eq_true_eq] at hn ⊢
    exact lt_of_lt_of_le hn h

theorem qualifying_sublist (nodes : List Node) (s : Int) :
    List.Sublist (qualifying nodes s) nodes :=
  List.filter_sublist nodes

theorem sum_le_of_sublist {l1 l2 : List Nat} (h : List.Sublist l1 l2) :
    l1.sum ≤ l2.sum :=
  List.Sublist.sum_le_sum h fun a _ => Nat.zero_le a

theorem toFinset_subset_of_sublist {l1 l2 : List Nat} (h : List.Sublist l1 l2) :
    l1.toFinset ⊆ l2.toFinset := by
  intro x hx
  rw [List.mem_toFinset] at hx ⊢
  exact h.subset hx

/-- Without u64 overflow on the grand total, the wrapped per-month totals of
two nested windows compare like their plain sums. -/
theorem wrap_mono_of_no_overflow (f : Node → Nat) (nodes : List Node) {s1 s2 : Int}
    (h : s1 ≤ s2) (hov : (nodes.map f).sum < U64MOD) :
    ((qualifying nodes s1).map f).sum % U64MOD ≤
      ((qualifying nodes s2).map f).sum % U64MOD := by
  have h1 : ((qualifying nodes s1).map f).sum ≤ ((qualifying nodes s2).map f).sum :=
    sum_le_of_sublist ((qualifying_sublist_of_le nodes h).map f)
  have h2 : ((qualifying nodes s2).map f).sum ≤ (nodes.map f).sum :=
    sum_le_of_sublist ((qualifying_sublist nodes s2).map f)
  rw [Nat.mod_eq_of_lt (lt_of_le_of_lt h2 hov),
    Nat.mod_eq_of_lt (lt_of_le_of_lt (le_trans h1 h2) hov)]
  exact h1

/-! ### Claims -/

/-- C1 (counterexample): the claim asserts that at the first month with
`now < month_start` the whole iteration, outer year loop included,
terminates immediately, so that no later month of any year is considered.
With `now = 0` the very first grid month (2022, 1) already fails the cutoff,
yet the loop body goes on to examine the first month of each of the nine
following years, because the Rust `break` exits only the inner month loop.
(No row is emitted for any of them, so the emitted rows still match the
claim's cutoff rule.) -/
theorem claim1_cex :
    (0 : Int) < monthStart 2022 1 ∧
    examinedMonths 0 =
      [(2022, 1), (2023, 1), (2024, 1), (2025, 1), (2026, 1), (2027, 1),
       (2028, 1), (2029, 1), (2030, 1), (2031, 1)] ∧
    emittedMonths 0 = [] := by
  refine ⟨by decide, by decide, by decide⟩

/-- C1 (amended): a data row is emitted for a month of the 10-year grid if
and only if that month's UTC start timestamp is at most `now`.  At the first
month with `now < month_start` only the inner month loop exits; the outer
year loop still examines the first month of each later year, but every such
month also fails the cutoff, so no row is ever emitted for any later month
of any year. -/
theorem claim1_cutoff_iff (now : Int) (y m : Nat) :
    (y, m) ∈ emittedMonths now ↔ ((y, m) ∈ monthGrid ∧ monthStart y m ≤ now) := by
  rw [emittedMonths_eq, List.mem_filter]
  simp

/-- C5: for every node list and month cutoff, node_count is the number of
nodes created strictly before the cutoff and the farm set is the set of
distinct farm ids of those nodes (so farm_count is its cardinality);
concretely, five nodes with farm ids [1, 1, 2, 3, 2] all created before the
cutoff give farm_count 3 and node_count 5. -/
theorem claim5_farm_dedup :
    (∀ (nodes : List Node) (start : Int),
        (aggregate nodes start).1 = (qualifying nodes start).length ∧
        (aggregate nodes start).2.1 =
          ((qualifying nodes start).map Node.farm_id).toFinset) ∧
    (aggregate
        [⟨1, 1, 0, ⟨0, 0, 0, 0⟩⟩, ⟨2, 1, 0, ⟨0, 0, 0, 0⟩⟩, ⟨3, 2, 0, ⟨0, 0, 0, 0⟩⟩,
         ⟨4, 3, 0, ⟨0, 0, 0, 0⟩⟩, ⟨5, 2, 0, ⟨0, 0, 0, 0⟩⟩]
        (monthStart 2022 1)).2.1.card = 3 ∧
    (aggregate
        [⟨1, 1, 0, ⟨0, 0, 0, 0⟩⟩, ⟨2, 1, 0, ⟨0, 0, 0, 0⟩⟩, ⟨3, 2, 0, ⟨0, 0, 0, 0⟩⟩,
         ⟨4, 3, 0, ⟨0, 0, 0, 0⟩⟩, ⟨5, 2, 0, ⟨0, 0, 0, 0⟩⟩]
        (monthStart 2022 1)).1 = 5 := by
  refine ⟨fun nodes start => ?_, by decide, by decide⟩
  rw [aggregate_eq]
  exact ⟨rfl, rfl⟩

/-- C8: with an empty node list every emitted row carries node_count 0,
farm_count 0 and zero resource totals, and the month iteration still covers
exactly the grid months whose start is at most `now` (the loop does not
depend on the node list at all); the run completes, the model being a total
function. -/
theorem claim8_empty_nodes (now : Int) :
    (∀ s : Int, aggregate [] s = (0, ∅, ⟨0, 0, 0, 0⟩)) ∧
    emittedMonths now =
      monthGrid.filter (fun p => decide (monthStart p.1 p.2 ≤ now)) ∧
    outputRows [] now =
      (monthGrid.filter (fun p => decide (monthStart p.1 p.2 ≤ now))).map
        (fun p => rowLine p.1 p.2 (0, ∅, ⟨0, 0, 0, 0⟩)) := by
  refine ⟨fun s => rfl, emittedMonths_eq now, ?_⟩
  unfold outputRows
  rw [emittedMonths_eq now]
  exact List.map_congr_left fun p _ => rfl

/-- C9: on every aggregate the program can compute (hence on every emitted
row), the farm count is at most the node count: each counted node
contributes exactly one, possibly duplicate, farm id to the deduplicating
set. -/
theorem claim9_farms_le_nodes (nodes : List Node) (start : Int) :
    (aggregate nodes start).2.1.card ≤ (aggregate nodes start).1 := by
  rw [aggregate_eq]
  calc ((qualifying nodes start).map Node.farm_id).toFinset.card
      ≤ ((qualifying nodes start).map Node.farm_id).length := List.toFinset_card_le _
    _ = (qualifying nodes start).length := by simp

set_option maxRecDepth 8000 in
/-- C10: the header line is the first output line unconditionally; and when
`now` precedes 2022-01-01T00:00:00Z (the start of January of START_YEAR) the
output is exactly the header line with zero data rows. -/
theorem claim10_header_first (nodes : List Node) (now : Int) :
    (outputLines nodes now).head? = some headerLine ∧
    (now < monthStart 2022 1 → outputLines nodes now = [headerLine]) := by
  refine ⟨rfl, fun h => ?_⟩
  unfold outputLines outputRows
  have hmin : ∀ p ∈ monthGrid, monthStart 2022 1 ≤ monthStart p.1 p.2 := by decide
  rw [emittedMonths_eq, List.filter_eq_nil_iff.mpr ?_]
  · rfl
  · intro p hp
    simp only [decide_eq_true_eq, not_le]
    exact lt_of_lt_of_le h (hmin p hp)

/-- C10 (witness): at `now = 0`, before 2022, the file is just the header. -/
theorem claim10_witness :
    (0 : Int) < monthStart 2022 1 ∧ outputLines [] 0 = [headerLine] :=
  ⟨by decide, (claim10_header_first [] 0).2 (by decide)⟩

set_option maxRecDepth 8000 in
/-- C2 (counterexample): monotonicity across months fails as stated, because
the u64 resource additions wrap modulo 2^64.  With one node of cru 5 created
before January 2022 and one node of cru 2^64 - 1 created exactly at the
January cutoff (so it enters the window only from February on), both months
are in the iteration for `now` = the February cutoff, January is
chronologically first, yet the February cru total (5 + (2^64 - 1)) mod 2^64
= 4 is smaller than January's 5. -/
theorem claim2_cex :
    monthStart 2022 1 ≤ monthStart 2022 2 ∧
    (2022, 1) ∈ emittedMonths (monthStart 2022 2) ∧
    (2022, 2) ∈ emittedMonths (monthStart 2022 2) ∧
    ¬ ((aggregate
          [⟨1, 1, 0, ⟨5, 0, 0, 0⟩⟩,
           ⟨2, 2, 1640995200, ⟨18446744073709551615, 0, 0, 0⟩⟩]
          (monthStart 2022 1)).2.2.cru ≤
        (aggregate
          [⟨1, 1, 0, ⟨5, 0, 0, 0⟩⟩,
           ⟨2, 2, 1640995200, ⟨18446744073709551615, 0, 0, 0⟩⟩]
          (monthStart 2022 2)).2.2.cru) := by
  refine ⟨by decide, by decide, by decide, by decide⟩

/-- C2 (amended): for every node list and any two month cutoffs with the
first at most the second, node_count and farm_count are non-decreasing, and
each of the four resource totals is non-decreasing provided the sum of that
resource over all nodes stays below 2^64 (no u64 wrap-around). -/
theorem claim2_monotone (nodes : List Node) (s1 s2 : Int) (h : s1 ≤ s2) :
    (aggregate nodes s1).1 ≤ (aggregate nodes s2).1 ∧
    (aggregate nodes s1).2.1.card ≤ (aggregate nodes s2).2.1.card ∧
    ((nodes.map fun n => n.resources_total.cru).sum < U64MOD →
      (aggregate nodes s1).2.2.cru ≤ (aggregate nodes s2).2.2.cru) ∧
    ((nodes.map fun n => n.resources_total.mru).sum < U64MOD →
      (aggregate nodes s1).2.2.mru ≤ (aggregate nodes s2).2.2.mru) ∧
    ((nodes.map fun n => n.resources_total.sru).sum < U64MOD →
      (aggregate nodes s1).2.2.sru ≤ (aggregate nodes s2).2.2.sru) ∧
    ((nodes.map fun n => n.resources_total.hru).sum < U64MOD →
      (aggregate nodes s1).2.2.hru ≤ (aggregate nodes s2).2.2.hru) := by
  have hsub := qualifying_sublist_of_le nodes h
  rw [aggregate_eq nodes s1, aggregate_eq nodes s2]
  exact ⟨hsub.length_le,
    Finset.card_le_card (toFinset_subset_of_sublist (hsub.map _)),
    fun hov => wrap_mono_of_no_overflow _ nodes h hov,
    fun hov => wrap_mono_of_no_overflow _ nodes h hov,
    fun hov => wrap_mono_of_no_overflow _ nodes h hov,
    fun hov => wrap_mono_of_no_overflow _ nodes h hov⟩

/-- C2 (witness): the amended theorem applied to a one-node list and the
cutoffs 0 and 1. -/
theorem claim2_witness :
    (aggregate [⟨1, 1, 0, ⟨1, 2, 3, 4⟩⟩] 0).1 ≤
      (aggregate [⟨1, 1, 0, ⟨1, 2, 3, 4⟩⟩] 1).1 ∧
    (aggregate [⟨1, 1, 0, ⟨1, 2, 3, 4⟩⟩] 0).2.2.cru ≤
      (aggregate [⟨1, 1, 0, ⟨1, 2, 3, 4⟩⟩] 1).2.2.cru :=
  ⟨(claim2_monotone [⟨1, 1, 0, ⟨1, 2, 3, 4⟩⟩] 0 1 (by decide)).1,
   (claim2_monotone [⟨1, 1, 0, ⟨1, 2, 3, 4⟩⟩] 0 1 (by decide)).2.2.1 (by decide)⟩

set_option maxRecDepth 8000 in
/-- C3 (counterexample): the row totals are not the plain elementwise sums,
because the u64 additions wrap modulo 2^64: two nodes of cru 2^63 created
before January 2022 give a January row whose cru total is 0, while the sum
of cru over the qualifying nodes is 2^64. -/
theorem claim3_cex :
    (2022, 1) ∈ emittedMonths (monthStart 2022 1) ∧
    (aggregate
        [⟨1, 1, 0, ⟨9223372036854775808, 0, 0, 0⟩⟩,
         ⟨2, 2, 0, ⟨9223372036854775808, 0, 0, 0⟩⟩]
        (monthStart 2022 1)).2.2.cru = 0 ∧
    ((qualifying
        [⟨1, 1, 0, ⟨9223372036854775808, 0, 0, 0⟩⟩,
         ⟨2, 2, 0, ⟨9223372036854775808, 0, 0, 0⟩⟩]
        (monthStart 2022 1)).map fun n => n.resources_total.cru).sum =
      18446744073709551616 ∧
    (0 : Nat) ≠ 18446744073709551616 := by
  refine ⟨by decide, by decide, by decide, by decide⟩

/-- C3 (amended): for every emitted row, each resource total equals the
elementwise sum, reduced modulo 2^64 (u64 wrap-around), of that resource
over exactly the nodes with created strictly before the month's start; a
node with created equal to month_start is excluded; and whenever the sum is
below 2^64 the total equals the plain sum. -/
theorem claim3_row_sums (nodes : List Node) (now : Int) (y m : Nat)
    (_h : (y, m) ∈ emittedMonths now) :
    ((aggregate nodes (monthStart y m)).2.2.cru =
        ((qualifying nodes (monthStart y m)).map fun n => n.resources_total.cru).sum
          % U64MOD ∧
      (aggregate nodes (monthStart y m)).2.2.mru =
        ((qualifying nodes (monthStart y m)).map fun n => n.resources_total.mru).sum
          % U64MOD ∧
      (aggregate nodes (monthStart y m)).2.2.sru =
        ((qualifying nodes (monthStart y m)).map fun n => n.resources_total.sru).sum
          % U64MOD ∧
      (aggregate nodes (monthStart y m)).2.2.hru =
        ((qualifying nodes (monthStart y m)).map fun n => n.resources_total.hru).sum
          % U64MOD) ∧
    (∀ n ∈ nodes, n.created = monthStart y m →
      n ∉ qualifying nodes (monthStart y m)) ∧
    (∀ n, n ∈ qualifying nodes (monthStart y m) ↔
      n ∈ nodes ∧ n.created < monthStart y m) ∧
    (((qualifying nodes (monthStart y m)).map fun n => n.resources_total.cru).sum
        < U64MOD →
      (aggregate nodes (monthStart y m)).2.2.cru =
        ((qualifying nodes (monthStart y m)).map fun n => n.resources_total.cru).sum) := by
  refine ⟨?_, ?_, ?_, ?_⟩
  · rw [aggregate_eq]
    exact ⟨rfl, rfl, rfl, rfl⟩
  · intro n hn heq hmem
    unfold qualifying at hmem
    rw [List.mem_filter] at hmem
    simp only [decide_eq_true_eq] at hmem
    exact absurd (heq ▸ hmem.2) (lt_irrefl _)
  · intro n
    unfold qualifying
    rw [List.mem_filter]
    simp
  · intro hov
    rw [aggregate_eq]
    exact Nat.mod_eq_of_lt hov

/-- C3 (witness): the amended theorem applied to the January 2022 row over a
two-node list in which the second node is created exactly at the cutoff. -/
theorem claim3_witness :
    (aggregate [⟨1, 1, 0, ⟨2, 3, 4, 5⟩⟩, ⟨2, 2, 1640995200, ⟨100, 0, 0, 0⟩⟩]
        (monthStart 2022 1)).2.2.cru =
      ((qualifying [⟨1, 1, 0, ⟨2, 3, 4, 5⟩⟩, ⟨2, 2, 1640995200, ⟨100, 0, 0, 0⟩⟩]
          (monthStart 2022 1)).map fun n => n.resources_total.cru).sum % U64MOD :=
  ((claim3_row_sums [⟨1, 1, 0, ⟨2, 3, 4, 5⟩⟩, ⟨2, 2, 1640995200, ⟨100, 0, 0, 0⟩⟩]
      (monthStart 2022 1) 2022 1 (by decide)).1).1

theorem parseU64_none_of_bad_char {s : String} {c : Char} (hc : c ∈ s.data)
    (hd : c.isDigit = false) (hp : ¬ c = '+') : parseU64 s = none := by
  unfold parseU64
  have hmem : c ∈ stripPlus s.data := by
    cases hdata : s.data with
    | nil => rw [hdata] at hc; cases hc
    | cons a rest =>
      rw [hdata] at hc
      by_cases ha : a = '+'
      · simp only [stripPlus, if_pos ha]
        rcases List.mem_cons.mp hc with h1 | h1
        · exact absurd (h1.trans ha) hp
        · exact h1
      · simp only [stripPlus, if_neg ha]
        exact hc
  have hne : (stripPlus s.data).isEmpty = false := by
    cases hsp : stripPlus s.data with
    | nil => rw [hsp] at hmem; cases hmem
    | cons _ _ => rfl
  have hall : (stripPlus s.data).all Char.isDigit = false :=
    List.all_eq_false.mpr ⟨c, hmem, by simp [hd]⟩
  simp [hne, hall]

/-- C4 (counterexample): de_u64 does not succeed on the string form of every
non-negative integer: the decimal string of 2^64 consists only of digits (it
is numeric, non-fractional and non-negative), yet de_u64 rejects it, a
failure case the claim's list does not contain. -/
theorem claim4_cex :
    Nat.repr 18446744073709551616 = "18446744073709551616" ∧
    ("18446744073709551616" : String).data.all Char.isDigit = true ∧
    de_u64 (JValue.str "18446744073709551616") = none := by
  refine ⟨by decide, by decide, by decide⟩

/-- C4 (amended): de_u64 succeeds on a JSON number holding a non-negative
integer n representable as u64, and on the decimal string form of the same
n, producing the identical value n in both cases; it fails on the decimal
string of any integer of 2^64 or more, on negative numbers, on doubles
(fractional numbers and integers outside u64, which is how serde_json
stores them), on strings containing any character that is neither a digit
nor a leading plus sign (non-numeric and fractional strings), and on every
other JSON type (boolean, null, array, object). -/
theorem claim4_deserializer :
    (∀ n : Nat, n < U64MOD → de_u64 (JValue.num (JNumber.posInt n)) = some n) ∧
    (∀ n : Nat, n < U64MOD → de_u64 (JValue.str (Nat.repr n)) = some n) ∧
    (∀ n : Nat, U64MOD ≤ n → de_u64 (JValue.str (Nat.repr n)) = none) ∧
    (∀ i : Int, de_u64 (JValue.num (JNumber.negInt i)) = none) ∧
    de_u64 (JValue.num JNumber.float) = none ∧
    (∀ s : String, ∀ c ∈ s.data, c.isDigit = false → ¬ c = '+' →
        de_u64 (JValue.str s) = none) ∧
    (∀ b : Bool, de_u64 (JValue.bool b) = none) ∧
    de_u64 JValue.null = none ∧
    (∀ l : List JValue, de_u64 (JValue.arr l) = none) ∧
    (∀ fs : List (String × JValue), de_u64 (JValue.obj fs) = none) := by
  refine ⟨?_, ?_, ?_, fun i => rfl, rfl, ?_, fun b => rfl, rfl, fun l => rfl,
    fun fs => rfl⟩
  · intro n hn
    simp [de_u64, JNumber.as_u64, hn]
  · intro n hn
    show parseU64 (Nat.repr n) = some n
    rw [parseU64_repr, if_pos hn]
  · intro n hn
    show parseU64 (Nat.repr n) = none
    rw [parseU64_repr, if_neg (not_lt.mpr hn)]
  · intro s c hc hd hp
    exact parseU64_none_of_bad_char hc hd hp

/-- C4 (witness): the amended theorem applied to the number 123, the string
form of 123, and the non-numeric string form rejected cases. -/
theorem claim4_witness :
    de_u64 (JValue.num (JNumber.posInt 123)) = some 123 ∧
    de_u64 (JValue.str "123") = some 123 ∧
    de_u64 (JValue.str "abc") = none :=
  ⟨claim4_deserializer.1 123 (by decide),
   claim4_deserializer.2.1 123 (by decide),
   claim4_deserializer.2.2.2.2.2.1 "abc" 'a' (by decide) (by decide) (by decide)⟩

set_option maxRecDepth 8000 in
/-- C6: the iteration ranges over the fixed 120-month grid that starts at
(START_YEAR, 1) = (2022, 1), advances month by month with year rollover
after month 12, and is strictly increasing chronologically; for every `now`
the months actually examined form a sublist of that grid (so at most 120
iterations, themselves strictly increasing chronologically, and the first
examined month is always (2022, 1)), and at most 120 data rows are ever
emitted.  The model is a total function, so the iteration terminates. -/
theorem claim6_iteration :
    monthGrid.head? = some (START_YEAR, 1) ∧
    monthGrid.length = 120 ∧
    monthGrid.tail = monthGrid.dropLast.map nextMonth ∧
    monthGrid.Pairwise (fun a b => monthStart a.1 a.2 < monthStart b.1 b.2) ∧
    ∀ now : Int,
      List.Sublist (examinedMonths now) monthGrid ∧
      (examinedMonths now).Pairwise
        (fun a b => monthStart a.1 a.2 < monthStart b.1 b.2) ∧
      (examinedMonths now).length ≤ 120 ∧
      (examinedMonths now).head? = some (2022, 1) ∧
      ∀ nodes : List Node, (outputRows nodes now).length ≤ 120 := by
  refine ⟨by decide, monthGrid_length, by decide, monthGrid_sorted, fun now => ?_⟩
  refine ⟨examinedMonths_sublist now,
    List.Pairwise.sublist (examinedMonths_sublist now) monthGrid_sorted,
    le_trans (examinedMonths_sublist now).length_le (le_of_eq monthGrid_length),
    ?_, ?_⟩
  · have hy : years = 2022 :: List.range' 2023 9 := by decide
    have hm : monthNums = 1 :: List.range' 2 11 := by decide
    rw [examinedMonths, hy, hm, List.flatMap_cons]
    by_cases h : now < monthStart 2022 1
    · simp [scanMonths, h]
    · simp [scanMonths, h]
  · intro nodes
    unfold outputRows
    rw [List.length_map]
    exact le_trans (emittedMonths_sublist now).length_le (le_of_eq monthGrid_length)

set_option maxRecDepth 8000 in
/-- C7: the output begins with the exact header line, and every data row is
the date `year-month-1` (month taken from the grid, between 1 and 12,
printed without zero padding -- its decimal form never starts with the digit
0 and has at most two characters -- and day the literal 1) followed by
node_count, farm_count and the four resource totals cru, mru, sru, hru,
comma-separated. -/
theorem claim7_csv_format (nodes : List Node) (now : Int) :
    (outputLines nodes now).head? =
      some "date,node count,farms with nodes,total CRU,total MRU,total SRU,total HRU" ∧
    ∀ line ∈ (outputLines nodes now).tail, ∃ y m,
      (y, m) ∈ emittedMonths now ∧ 1 ≤ m ∧ m ≤ 12 ∧
      line = Nat.repr y ++ "-" ++ Nat.repr m ++ "-1," ++
        Nat.repr (aggregate nodes (monthStart y m)).1 ++ "," ++
        Nat.repr (aggregate nodes (monthStart y m)).2.1.card ++ "," ++
        Nat.repr (aggregate nodes (monthStart y m)).2.2.cru ++ "," ++
        Nat.repr (aggregate nodes (monthStart y m)).2.2.mru ++ "," ++
        Nat.repr (aggregate nodes (monthStart y m)).2.2.sru ++ "," ++
        Nat.repr (aggregate nodes (monthStart y m)).2.2.hru ∧
      (Nat.repr m).data.head? ≠ some '0' ∧ (Nat.repr m).length ≤ 2 := by
  refine ⟨rfl, fun line hline => ?_⟩
  simp only [outputLines, List.tail_cons, outputRows, List.mem_map] at hline
  obtain ⟨p, hp, hl⟩ := hline
  have hpg : p ∈ monthGrid := (emittedMonths_sublist now).subset hp
  have hbounds : ∀ q ∈ monthGrid, 1 ≤ q.2 ∧ q.2 ≤ 12 := by decide
  have hrepr : ∀ m2 < 13, 1 ≤ m2 →
      (Nat.repr m2).data.head? ≠ some '0' ∧ (Nat.repr m2).length ≤ 2 := by decide
  obtain ⟨h1, h2⟩ := hbounds p hpg
  refine ⟨p.1, p.2, hp, h1, h2, ?_, (hrepr p.2 (by omega) h1).1,
    (hrepr p.2 (by omega) h1).2⟩
  rw [← hl]
  rfl

/-- C7 (witness): the format theorem applied to the single January 2022 row
of the empty node list. -/
theorem claim7_witness :
    ∃ y m, (y, m) ∈ emittedMonths (monthStart 2022 1) ∧ 1 ≤ m ∧ m ≤ 12 ∧
      "2022-1-1,0,0,0,0,0,0" = Nat.repr y ++ "-" ++ Nat.repr m ++ "-1," ++
        Nat.repr (aggregate [] (monthStart y m)).1 ++ "," ++
        Nat.repr (aggregate [] (monthStart y m)).2.1.card ++ "," ++
        Nat.repr (aggregate [] (monthStart y m)).2.2.cru ++ "," ++
        Nat.repr (aggregate [] (monthStart y m)).2.2.mru ++ "," ++
        Nat.repr (aggregate [] (monthStart y m)).2.2.sru ++ "," ++
        Nat.repr (aggregate [] (monthStart y m)).2.2.hru ∧
      (Nat.repr m).data.head? ≠ some '0' ∧ (Nat.repr m).length ≤ 2 :=
  (claim7_csv_format [] (monthStart 2022 1)).2 "2022-1-1,0,0,0,0,0,0" (by decide)
